import Mathlib

/-!
Shallow embedding of the Terminal Session Core of the EchoMUD repository:
the command-line editor state machine (`CommandLineEditor.cpp`), the
bounded command history, the output-log drawing slice and the submission
path of `ConsoleUI.cpp`, and the signal-callback registry of
`SignalHandler.cpp`.  C++ strings are modelled as `List Char`, C++ `int`
as `Int`, fallible OS calls as explicit boolean oracles, and
`std::unordered_map` as a function into `Option`.
-/

namespace EchoMUD

/-- Insertion into a string at byte index `i`, as done by
`std::string::insert(pos, 1, ch)` when `pos <= size()`. -/
def insertAt (l : List Char) (i : Nat) (c : Char) : List Char :=
  l.take i ++ c :: l.drop i

/-- Removal of one byte at index `i`, as done by
`std::string::erase(pos, 1)` when `pos <= size()`. -/
def eraseAt (l : List Char) (i : Nat) : List Char :=
  l.take i ++ l.drop (i + 1)

theorem length_insertAt (l : List Char) (i : Nat) (c : Char) (h : i ≤ l.length) :
    (insertAt l i c).length = l.length + 1 := by
  simp [insertAt]
  omega

theorem length_eraseAt (l : List Char) (i : Nat) :
    (eraseAt l i).length = if i < l.length then l.length - 1 else l.length := by
  simp [eraseAt]
  split <;> omega

namespace CommandLineEditor

/-- The editing state of `CommandLineEditor`: the in-progress input string
`m_inputBuffer`, the cursor index `m_cursorPos` (a C++ `int`, hence `Int`),
the bounded command history `m_commandHistory` and the browsing index
`m_historyIndex` (`-1` = not browsing).  The window pointer and width play
no role in key processing and are omitted. -/
structure EditorState where
  inputBuffer : List Char
  cursorPos : Int
  commandHistory : List (List Char)
  historyIndex : Int
  deriving Repr, DecidableEq

/-- Largest value of a C++ 32-bit `int`, used by the source's
`std::min(m_inputBuffer.length(), static_cast<size_t>(std::numeric_limits<int>::max()))`. -/
def intMax : Nat := 2147483647

/-- Cursor value the source computes when jumping to the end of a string:
`static_cast<int>(std::min(length, size_t(INT_MAX)))`. -/
def clampLen (n : Nat) : Int := Int.ofNat (min n intMax)

/-- `CommandLineEditor::addToHistory`: empty commands and duplicates of the
last entry are not appended; otherwise the command is pushed at the back
and, if the size now exceeds `MAX_HISTORY` = 100, the oldest entry
(`begin()`) is erased. -/
def addToHistory (hist : List (List Char)) (command : List Char) : List (List Char) :=
  if command = [] ∨ (hist ≠ [] ∧ hist.getLast? = some command) then hist
  else
    let h := hist ++ [command]
    if 100 < h.length then h.drop 1 else h

/-- `CommandLineEditor::handleBackspace`: if the cursor is positive, erase
the byte before it and move left.  `std::string::erase` throws (caught,
state unchanged) when the position exceeds the size. -/
def handleBackspace (st : EditorState) : EditorState :=
  if 0 < st.cursorPos then
    if st.cursorPos - 1 ≤ (st.inputBuffer.length : Int) then
      { st with inputBuffer := eraseAt st.inputBuffer (st.cursorPos - 1).toNat,
                cursorPos := st.cursorPos - 1 }
    else st
  else st

/-- `CommandLineEditor::handleDelete`: if the cursor is before the end,
erase the byte at it.  A negative cursor converts to a huge `size_t`,
making `erase` throw (caught, state unchanged). -/
def handleDelete (st : EditorState) : EditorState :=
  if st.cursorPos < (st.inputBuffer.length : Int) then
    if 0 ≤ st.cursorPos then
      { st with inputBuffer := eraseAt st.inputBuffer st.cursorPos.toNat }
    else st
  else st

/-- `CommandLineEditor::handleLeftArrow`. -/
def handleLeftArrow (st : EditorState) : EditorState :=
  if 0 < st.cursorPos then { st with cursorPos := st.cursorPos - 1 } else st

/-- `CommandLineEditor::handleRightArrow`. -/
def handleRightArrow (st : EditorState) : EditorState :=
  if st.cursorPos < (st.inputBuffer.length : Int) then
    { st with cursorPos := st.cursorPos + 1 }
  else st

/-- `CommandLineEditor::handleHome`. -/
def handleHome (st : EditorState) : EditorState := { st with cursorPos := 0 }

/-- `CommandLineEditor::handleEnd`. -/
def handleEnd (st : EditorState) : EditorState :=
  { st with cursorPos := clampLen st.inputBuffer.length }

/-- `CommandLineEditor::handleUpArrow`: with a non-empty history, move the
history index toward 0 (initialising it to the last entry when not
browsing) and, when the resulting index is in range, load that entry into
the buffer with the cursor at its end. -/
def handleUpArrow (st : EditorState) : EditorState :=
  if st.commandHistory = [] then st
  else
    let idx : Int :=
      if st.historyIndex = -1 then (st.commandHistory.length : Int) - 1
      else if 0 < st.historyIndex then st.historyIndex - 1
      else st.historyIndex
    if 0 ≤ idx ∧ idx < (st.commandHistory.length : Int) then
      let entry := st.commandHistory.getD idx.toNat []
      { st with historyIndex := idx, inputBuffer := entry,
                cursorPos := clampLen entry.length }
    else { st with historyIndex := idx }

/-- `CommandLineEditor::handleDownArrow`: while browsing, advance toward
the newest entry; past the end, stop browsing and clear the buffer. -/
def handleDownArrow (st : EditorState) : EditorState :=
  if st.historyIndex = -1 then st
  else if st.historyIndex < (st.commandHistory.length : Int) - 1 then
    let idx := st.historyIndex + 1
    let entry := st.commandHistory.getD idx.toNat []
    { st with historyIndex := idx, inputBuffer := entry,
              cursorPos := clampLen entry.length }
  else { st with historyIndex := -1, inputBuffer := [], cursorPos := 0 }

/-- `CommandLineEditor::handleCharacter`: insert the byte at the cursor and
move right.  `std::string::insert` throws (caught, state unchanged) when
the position exceeds the size, which a negative cursor also triggers after
conversion to `size_t`. -/
def handleCharacter (st : EditorState) (ch : Int) : EditorState :=
  if 0 ≤ st.cursorPos ∧ st.cursorPos ≤ (st.inputBuffer.length : Int) then
    { st with inputBuffer := insertAt st.inputBuffer st.cursorPos.toNat (Char.ofNat ch.toNat),
              cursorPos := st.cursorPos + 1 }
  else st

/-- Result record returned by `processKey`. -/
structure KeyProcessResult where
  needsRedraw : Bool
  commandSubmitted : Bool
  submittedCommand : List Char
  deriving Repr, DecidableEq

/-- ncurses key code `KEY_DOWN` (0402). -/
def keyDown : Int := 258
/-- ncurses key code `KEY_UP` (0403). -/
def keyUp : Int := 259
/-- ncurses key code `KEY_LEFT` (0404). -/
def keyLeft : Int := 260
/-- ncurses key code `KEY_RIGHT` (0405). -/
def keyRight : Int := 261
/-- ncurses key code `KEY_HOME` (0406). -/
def keyHome : Int := 262
/-- ncurses key code `KEY_BACKSPACE` (0407). -/
def keyBackspace : Int := 263
/-- ncurses key code `KEY_DC` (0512). -/
def keyDC : Int := 330
/-- ncurses key code `KEY_ENTER` (0527). -/
def keyEnter : Int := 343
/-- ncurses key code `KEY_END` (0550). -/
def keyEnd : Int := 360

/-- `CommandLineEditor::processKey`: the switch over one key code.  On
Enter with a non-empty buffer the command is recorded, added to the
history, and the edit state is reset; printable ASCII (32–126) is
inserted; unrecognised keys are a no-op; every key reports
`needsRedraw = true`. -/
def processKey (st : EditorState) (key : Int) : EditorState × KeyProcessResult :=
  if key = keyBackspace ∨ key = 127 ∨ key = 8 then
    (handleBackspace st, ⟨true, false, []⟩)
  else if key = keyDC then (handleDelete st, ⟨true, false, []⟩)
  else if key = keyLeft then (handleLeftArrow st, ⟨true, false, []⟩)
  else if key = keyRight then (handleRightArrow st, ⟨true, false, []⟩)
  else if key = keyHome then (handleHome st, ⟨true, false, []⟩)
  else if key = keyEnd then (handleEnd st, ⟨true, false, []⟩)
  else if key = keyUp then (handleUpArrow st, ⟨true, false, []⟩)
  else if key = keyDown then (handleDownArrow st, ⟨true, false, []⟩)
  else if key = keyEnter ∨ key = 10 ∨ key = 13 then
    if st.inputBuffer ≠ [] then
      ({ st with commandHistory := addToHistory st.commandHistory st.inputBuffer,
                 inputBuffer := [], cursorPos := 0, historyIndex := -1 },
       ⟨true, true, st.inputBuffer⟩)
    else (st, ⟨true, false, []⟩)
  else if 32 ≤ key ∧ key ≤ 126 then (handleCharacter st key, ⟨true, false, []⟩)
  else (st, ⟨true, false, []⟩)

/-- State component of `processKey`, for iterating over key sequences. -/
def processKeyS (st : EditorState) (key : Int) : EditorState :=
  (processKey st key).1

/-- The cursor invariant of the spec: `0 <= cursor <= len(buffer)`. -/
def CursorInv (st : EditorState) : Prop :=
  0 ≤ st.cursorPos ∧ st.cursorPos ≤ (st.inputBuffer.length : Int)

instance (st : EditorState) : Decidable (CursorInv st) := by
  unfold CursorInv; infer_instance

end CommandLineEditor

namespace ConsoleUI

/-- Liveness of the four window handles of `ConsoleUI` (`m_outputBorderWin`,
`m_inputBorderWin`, `m_outputWin`, `m_inputWin`).  A field is `true` when
the owning `unique_ptr` holds a live window. -/
structure WinState where
  outputBorderWin : Bool
  inputBorderWin : Bool
  outputWin : Bool
  inputWin : Bool
  deriving Repr, DecidableEq

/-- `ConsoleUI::destroyWindows`: reset all four handles. -/
def destroyWindows (_st : WinState) : WinState :=
  { outputBorderWin := false, inputBorderWin := false,
    outputWin := false, inputWin := false }

/-- `ConsoleUI::createBorderWindows`, with the success of the two `newwin`
calls given by the oracle booleans `a1`, `a2`.  If the second creation
fails the first border window is cleaned up. -/
def createBorderWindows (st : WinState) (a1 a2 : Bool) : WinState × Bool :=
  let st1 := { st with outputBorderWin := a1 }
  if !a1 then (st1, false)
  else
    let st2 := { st1 with inputBorderWin := a2 }
    if !a2 then ({ st2 with outputBorderWin := false }, false)
    else (st2, true)

/-- `ConsoleUI::createInnerWindows`, with the success of the two `newwin`
calls given by `a3`, `a4`.  On failure of the first inner window nothing
is cleaned up (the resets of the border windows are commented out in the
source); on failure of the second only the first inner window is reset. -/
def createInnerWindows (st : WinState) (a3 a4 : Bool) : WinState × Bool :=
  let st1 := { st with outputWin := a3 }
  if !a3 then (st1, false)
  else
    let st2 := { st1 with inputWin := a4 }
    if !a4 then ({ st2 with outputWin := false }, false)
    else (st2, true)

/-- `ConsoleUI::createWindows` restricted to its window lifecycle: destroy
the existing windows, then create the two border windows and the two
inner windows, returning failure as soon as a creation group fails.  The
four oracle booleans give the outcome of the four `newwin` calls in
program order. -/
def createWindows (st : WinState) (a1 a2 a3 a4 : Bool) : WinState × Bool :=
  let st0 := destroyWindows st
  let r1 := createBorderWindows st0 a1 a2
  if !r1.2 then (r1.1, false)
  else
    let r2 := createInnerWindows r1.1 a3 a4
    if !r2.2 then (r2.1, false)
    else (r2.1, true)

/-- The loop of `ConsoleUI::drawOutputWindow`: after the early return for
a non-positive window height or width, the displayed slice is the buffer
lines with indices in `[max 0 (n - h - s), max 0 (n - s))`, the loop
breaking once `winHeight` lines have been emitted. -/
def drawOutputWindow (buffer : List (List Char)) (winHeight winWidth scrollOffset : Int) :
    List (List Char) :=
  if winHeight ≤ 0 ∨ winWidth ≤ 0 then []
  else
    let n : Int := (buffer.length : Int)
    let firstLineIdx : Int := max 0 (n - winHeight - scrollOffset)
    let lastLineIdx : Int := max 0 (n - scrollOffset)
    (List.range (min (lastLineIdx - firstLineIdx) winHeight).toNat).map
      (fun k => buffer.getD (firstLineIdx.toNat + k) [])

/-- `ConsoleUI::addOutputMessage` without the allocation-failure recovery
paths: push the message at the back and, if the size now exceeds
`MAX_BUFFER_SIZE` = 1000, erase `size - 1000` entries from the front. -/
def addOutputMessage (buffer : List (List Char)) (message : List Char) : List (List Char) :=
  let b := buffer ++ [message]
  if 1000 < b.length then b.drop (b.length - 1000) else b

/-- The whitespace set `" \t\n\r\f\v"` used by the trimming in
`ConsoleUI::processCommand`. -/
def isWS (c : Char) : Bool :=
  c = ' ' || c = '\t' || c = '\n' || c = '\r' || c = '\x0c' || c = '\x0b'

/-- Left-then-right whitespace trim performed by `ConsoleUI::processCommand`
(`find_first_not_of` / `find_last_not_of` over `" \t\n\r\f\v"`). -/
def trimWS (l : List Char) : List Char :=
  ((l.dropWhile isWS).reverse.dropWhile isWS).reverse

/-- ASCII lowering performed by `std::transform(..., ::tolower)`. -/
def toLowerCh (c : Char) : Char :=
  if 'A' ≤ c ∧ c ≤ 'Z' then Char.ofNat (c.toNat + 32) else c

/-- Split of the trimmed command at the first space, lowering the command
name and left-trimming the arguments, as in `ConsoleUI::processCommand`. -/
def splitCommand (t : List Char) : List Char × List Char :=
  let cmd := t.takeWhile (fun c => c ≠ ' ')
  match t.dropWhile (fun c => c ≠ ' ') with
  | [] => (cmd.map toLowerCh, [])
  | _ :: rest => (cmd.map toLowerCh, rest.dropWhile isWS)

/-- Session state touched by the submission path: the output buffer
`m_outputBuffer` and the run flag `m_isRunning`. -/
structure SessionState where
  outputBuffer : List (List Char)
  isRunning : Bool
  deriving Repr, DecidableEq

/-- `ConsoleUI::handleGameCommand`, parameterised by the external command
dispatcher `dispatch` (`GameEngine::handleCommand`) and quit policy
`quitP` (`GameEngine::shouldQuit`): a quitting command appends
`"Exiting game..."` and stops the loop; otherwise the dispatcher's
response is appended. -/
def handleGameCommand (dispatch : List Char → List Char → List Char)
    (quitP : List Char → List Char → Bool)
    (st : SessionState) (cmd args : List Char) : SessionState :=
  if quitP cmd args then
    { st with outputBuffer := addOutputMessage st.outputBuffer "Exiting game...".toList,
              isRunning := false }
  else
    { st with outputBuffer := addOutputMessage st.outputBuffer (dispatch cmd args) }

/-- `ConsoleUI::processCommand`: return unchanged on an empty or
whitespace-only command, otherwise trim, split at the first space, lower
the command name and hand the pair to `handleGameCommand`. -/
def processCommand (dispatch : List Char → List Char → List Char)
    (quitP : List Char → List Char → Bool)
    (st : SessionState) (command : List Char) : SessionState :=
  if command = [] then st
  else if command.dropWhile isWS = [] then st
  else
    let p := splitCommand (trimWS command)
    handleGameCommand dispatch quitP st p.1 p.2

/-- The command-submission branch of `ConsoleUI::handleInput`: echo
`"> " ++ command` into the output buffer, then process the command. -/
def submitCommand (dispatch : List Char → List Char → List Char)
    (quitP : List Char → List Char → Bool)
    (st : SessionState) (command : List Char) : SessionState :=
  let st1 := { st with
    outputBuffer := addOutputMessage st.outputBuffer ("> ".toList ++ command) }
  processCommand dispatch quitP st1 command

end ConsoleUI

namespace SignalHandler

/-- Error codes of `SignalHandler` (`SignalError`). -/
inductive SignalError where
  | InvalidSignal
  | CallbackError
  | RegisterFailed
  | UnregisterFailed
  deriving Repr, DecidableEq

/-- The registry `s_signalCallbacks`, an `unordered_map` from signal
number to callback, modelled extensionally.  `α` is the callback type;
a null `std::function` argument is modelled as `none` at the interface,
while stored callbacks are non-null. -/
def Registry (α : Type) := Int → Option α

/-- `SignalHandler::registerHandler`: reject non-positive signals and null
callbacks; otherwise store the callback, and on failure of the OS-level
`std::signal` call (oracle `osOk = false`) erase the just-written map
entry and fail with `RegisterFailed`. -/
def registerHandler {α : Type} (reg : Registry α) (signal : Int)
    (callback : Option α) (osOk : Bool) : Registry α × Option SignalError :=
  if signal ≤ 0 then (reg, some .InvalidSignal)
  else
    match callback with
    | none => (reg, some .CallbackError)
    | some f =>
      let reg1 : Registry α := fun s => if s = signal then some f else reg s
      if osOk then (reg1, none)
      else (fun s => if s = signal then none else reg1 s, some .RegisterFailed)

/-- `SignalHandler::unregisterHandler`: reject non-positive signals; succeed
as a no-op when nothing is registered; otherwise erase the entry and reset
the OS disposition, failing with `UnregisterFailed` when the OS call
(oracle `osOk = false`) fails. -/
def unregisterHandler {α : Type} (reg : Registry α) (signal : Int)
    (osOk : Bool) : Registry α × Option SignalError :=
  if signal ≤ 0 then (reg, some .InvalidSignal)
  else
    match reg signal with
    | none => (reg, none)
    | some _ =>
      let reg1 : Registry α := fun s => if s = signal then none else reg s
      if osOk then (reg1, none) else (reg1, some .UnregisterFailed)

/-- `SignalHandler::handleSignal` with the lock acquired: look the signal
up and invoke the stored callback if present, returning the callback that
was invoked (`none` when no callback ran). -/
def handleSignal {α : Type} (reg : Registry α) (signal : Int) : Option α :=
  match reg signal with
  | some f => some f
  | none => none

end SignalHandler

namespace GameEngine

/-- `FakeHookSystem::beforeCommand` (GameWorld.h): blocks, i.e. quits, on
`"exit"` and `"quit"`. -/
def beforeCommand (command _args : List Char) : Bool :=
  command = "exit".toList || command = "quit".toList

/-- `GameEngine::shouldQuit`: `exit`/`quit` directly, or the hook system. -/
def shouldQuit (cmd args : List Char) : Bool :=
  cmd = "exit".toList || cmd = "quit".toList || beforeCommand cmd args

/-- Response of the `look` command handler of `GameEngine` for the current
room: `"You are in: " + room + "\n\n"` followed by the room-specific
description. -/
def lookHandler (currentRoom : List Char) : List Char :=
  "You are in: ".toList ++ currentRoom ++ "\n\n".toList ++
    (if currentRoom = "Start Room".toList then
      ("This is the starting area, a simple room with stone walls and a wooden floor. " ++
        "There's a door leading north and a small window on the east wall.").toList
    else if currentRoom = "North Room".toList then
      ("This is a larger chamber with a high ceiling. Dusty tapestries hang on the walls, " ++
        "and there's an old desk in the corner. The exit to the south leads back to the starting room.").toList
    else
      "This area has not been fully explored yet. There are exits in various directions.".toList)

/-- Initial room of a `Player` (GameWorld.h): `"Start Room"`. -/
def startRoom : List Char := "Start Room".toList

/-- Fragment of `GameEngine::handleCommand` needed by the `look` scenario:
the `look` registry entry, with the unknown-command fallback for any other
name.  The remaining registry entries are irrelevant to the claims. -/
def lookDispatch (cmd _args : List Char) : List Char :=
  if cmd = "look".toList then lookHandler startRoom
  else "Unknown command: '".toList ++ cmd ++ "'. Type 'help' for a list of commands.".toList

end GameEngine

/-! ## Theorems -/

open CommandLineEditor ConsoleUI SignalHandler GameEngine

section CursorInvariant

lemma clampLen_nonneg (n : Nat) : 0 ≤ clampLen n := by
  simp [clampLen]

lemma clampLen_le (n : Nat) : clampLen n ≤ (n : Int) := by
  simp [clampLen]

lemma inv_handleBackspace {st : EditorState} (h : CursorInv st) :
    CursorInv (handleBackspace st) := by
  unfold CursorInv at *
  unfold handleBackspace
  split_ifs with h1 h2
  · dsimp only
    rw [length_eraseAt]
    split <;> omega
  · omega
  · omega

lemma inv_handleDelete {st : EditorState} (h : CursorInv st) :
    CursorInv (handleDelete st) := by
  unfold CursorInv at *
  unfold handleDelete
  split_ifs with h1 h2
  · dsimp only
    rw [length_eraseAt]
    split <;> omega
  · omega
  · omega

lemma inv_handleLeftArrow {st : EditorState} (h : CursorInv st) :
    CursorInv (handleLeftArrow st) := by
  unfold CursorInv at *
  unfold handleLeftArrow
  split_ifs <;> first | (dsimp only; omega) | omega

lemma inv_handleRightArrow {st : EditorState} (h : CursorInv st) :
    CursorInv (handleRightArrow st) := by
  unfold CursorInv at *
  unfold handleRightArrow
  split_ifs <;> first | (dsimp only; omega) | omega

lemma inv_handleHome {st : EditorState} (_h : CursorInv st) :
    CursorInv (handleHome st) := by
  unfold CursorInv at *
  unfold handleHome
  dsimp only
  omega

lemma inv_handleEnd {st : EditorState} (_h : CursorInv st) :
    CursorInv (handleEnd st) :=
  ⟨clampLen_nonneg _, clampLen_le _⟩

lemma inv_handleUpArrow {st : EditorState} (h : CursorInv st) :
    CursorInv (handleUpArrow st) := by
  unfold CursorInv at *
  unfold handleUpArrow
  dsimp only
  split_ifs <;>
    first
      | exact h
      | exact ⟨clampLen_nonneg _, clampLen_le _⟩

lemma inv_handleDownArrow {st : EditorState} (h : CursorInv st) :
    CursorInv (handleDownArrow st) := by
  unfold CursorInv at *
  unfold handleDownArrow
  dsimp only
  split_ifs <;>
    first
      | exact h
      | exact ⟨clampLen_nonneg _, clampLen_le _⟩
      | exact ⟨le_refl 0, by simp⟩

lemma inv_handleCharacter {st : EditorState} (ch : Int) (h : CursorInv st) :
    CursorInv (handleCharacter st ch) := by
  unfold CursorInv at *
  unfold handleCharacter
  split_ifs
  dsimp only
  rw [length_insertAt _ _ _ (by omega)]
  omega

set_option maxHeartbeats 1000000 in
lemma inv_processKey {st : EditorState} (key : Int) (h : CursorInv st) :
    CursorInv (processKey st key).1 := by
  unfold processKey
  split_ifs
  · exact inv_handleBackspace h
  · exact inv_handleDelete h
  · exact inv_handleLeftArrow h
  · exact inv_handleRightArrow h
  · exact inv_handleHome h
  · exact inv_handleEnd h
  · exact inv_handleUpArrow h
  · exact inv_handleDownArrow h
  · exact ⟨le_refl 0, by simp [CursorInv]⟩
  · exact h
  · exact inv_handleCharacter key h
  · exact h

/-- C1: for every starting `EditState` satisfying `0 ≤ cursor ≤ len(buffer)`
and every key code handed to `CommandLineEditor::processKey`, the
invariant `0 ≤ cursor ≤ len(buffer)` still holds after the call, and hence
after every sequence of key-processing calls. -/
theorem processKey_preserves_cursor_bounds (st : EditorState) (key : Int)
    (h : CursorInv st) :
    CursorInv (processKeyS st key) ∧
      ∀ keys : List Int, CursorInv (keys.foldl processKeyS st) := by
  refine ⟨inv_processKey key h, fun keys => ?_⟩
  induction keys generalizing st with
  | nil => exact h
  | cons k ks ih => exact ih _ (inv_processKey k h)

/-- Witness for C1: a concrete editor state with `"ab"` in the buffer and
the cursor at 1 satisfies the invariant, and still does after processing
the printable key `'c'` (97). -/
theorem processKey_preserves_cursor_bounds_witness :
    CursorInv (processKeyS ⟨"ab".toList, 1, [], -1⟩ 97) ∧
      CursorInv (([97, 263, 259] : List Int).foldl processKeyS ⟨"ab".toList, 1, [], -1⟩) :=
  ⟨(processKey_preserves_cursor_bounds ⟨"ab".toList, 1, [], -1⟩ 97 (by decide)).1,
   (processKey_preserves_cursor_bounds ⟨"ab".toList, 1, [], -1⟩ 97 (by decide)).2 _⟩

end CursorInvariant

section WindowLifecycle

/-- C2 counterexample: run `createWindows` (from a state with no live
windows) with both border creations succeeding and the first inner-window
creation failing.  The call returns failure, yet both border windows
created earlier in the same call are still live — they are not torn
down, contradicting the claim that no region created earlier in the call
remains live. -/
theorem createWindows_partial_teardown_counterexample :
    (createWindows ⟨false, false, false, false⟩ true true false true).2 = false ∧
      (createWindows ⟨false, false, false, false⟩ true true false true).1.outputBorderWin = true ∧
      (createWindows ⟨false, false, false, false⟩ true true false true).1.inputBorderWin = true := by
  decide

/-- C2 amended: `createWindows` first destroys all previously existing
regions; if a border-creation step fails, every region created in the
call is torn down before returning failure, but if an inner-window
creation step fails, only the inner windows are cleaned up and the two
border windows created earlier in the call remain live.  Exactly the
full-success run leaves all four regions live and returns success. -/
theorem createWindows_teardown (st : WinState) (a1 a2 a3 a4 : Bool) :
    createWindows st a1 a2 a3 a4 =
      ({ outputBorderWin := a1 && a2, inputBorderWin := a1 && a2,
         outputWin := a1 && a2 && a3 && a4, inputWin := a1 && a2 && a3 && a4 },
       a1 && a2 && a3 && a4) := by
  cases a1 <;> cases a2 <;> cases a3 <;> cases a4 <;> rfl

end WindowLifecycle

section VisibleSlice

lemma range_map_getD {α : Type} (l : List α) (a c : Nat) (d : α)
    (hac : a + c ≤ l.length) :
    (List.range c).map (fun k => l.getD (a + k) d) = (l.drop a).take c := by
  apply List.ext_getElem
  · simp
    omega
  · intro i h1 h2
    have hlt : a + i < l.length := by
      simp only [List.length_map, List.length_range] at h1
      omega
    simp only [List.getElem_map, List.getElem_range, List.getElem_take, List.getElem_drop]
    exact List.getD_eq_getElem l d hlt

/-- C3: for every output log, viewport height `h ≥ 0`, positive content
width, and scroll offset `s ≥ 0`, the rendered slice is exactly the log
lines with indices in `[max 0 (n - h - s), max 0 (n - s))` in original
order, never holds more than `h` lines, and is empty when the log is
empty or the height is zero; with `s = 0` it is the whole log when
`n ≤ h` and exactly the last `h` lines when `n > h`. -/
theorem drawOutputWindow_visible_slice (buffer : List (List Char))
    (h w s : Int) (hh : 0 ≤ h) (hs : 0 ≤ s) (hw : 0 < w) :
    drawOutputWindow buffer h w s =
        (buffer.drop (max 0 ((buffer.length : Int) - h - s)).toNat).take
          ((max 0 ((buffer.length : Int) - s)).toNat -
            (max 0 ((buffer.length : Int) - h - s)).toNat) ∧
      ((drawOutputWindow buffer h w s).length : Int) ≤ h ∧
      ((buffer = [] ∨ h = 0) → drawOutputWindow buffer h w s = []) ∧
      (s = 0 → ((buffer.length : Int) ≤ h → drawOutputWindow buffer h w 0 = buffer) ∧
        (h < (buffer.length : Int) →
          drawOutputWindow buffer h w 0 = buffer.drop ((buffer.length : Int) - h).toNat)) := by
  have key : ∀ s' : Int, 0 ≤ s' →
      drawOutputWindow buffer h w s' =
        (buffer.drop (max 0 ((buffer.length : Int) - h - s')).toNat).take
          ((max 0 ((buffer.length : Int) - s')).toNat -
            (max 0 ((buffer.length : Int) - h - s')).toNat) := by
    intro s' hs'
    unfold drawOutputWindow
    split_ifs with h0
    · rcases h0 with h0 | h0
      · have hzero : h = 0 := le_antisymm h0 hh
        subst hzero
        have : (max 0 ((buffer.length : Int) - 0 - s')).toNat =
            (max 0 ((buffer.length : Int) - s')).toNat := by omega
        rw [this]
        simp
      · omega
    · dsimp only
      rw [show (min (max 0 ((buffer.length : Int) - s') -
            max 0 ((buffer.length : Int) - h - s')) h).toNat =
          (max 0 ((buffer.length : Int) - s')).toNat -
            (max 0 ((buffer.length : Int) - h - s')).toNat by omega]
      exact range_map_getD buffer _ _ [] (by omega)
  refine ⟨key s hs, ?_, ?_, ?_⟩
  · rw [key s hs]
    have hlen := List.length_take_le
      ((max 0 ((buffer.length : Int) - s)).toNat -
        (max 0 ((buffer.length : Int) - h - s)).toNat)
      (buffer.drop (max 0 ((buffer.length : Int) - h - s)).toNat)
    omega
  · rintro (rfl | rfl)
    · rw [key s hs]; simp
    · rw [key s hs]
      have : (max 0 ((buffer.length : Int) - 0 - s)).toNat =
          (max 0 ((buffer.length : Int) - s)).toNat := by omega
      simp [this]
  · intro hs0
    constructor
    · intro hle
      rw [key 0 le_rfl]
      have h1 : (max 0 ((buffer.length : Int) - h - 0)).toNat = 0 := by omega
      have h2 : (max 0 ((buffer.length : Int) - 0)).toNat = buffer.length := by omega
      rw [h1, h2]
      simp
    · intro hlt
      rw [key 0 le_rfl]
      have h1 : (max 0 ((buffer.length : Int) - h - 0)).toNat =
          ((buffer.length : Int) - h).toNat := by omega
      have h2 : (max 0 ((buffer.length : Int) - 0)).toNat = buffer.length := by omega
      rw [h1, h2]
      apply List.take_of_length_le
      simp

/-- Witness for C3: a five-line log in a viewport of height 3, width 10,
scroll offset 1 shows lines 1, 2 and 3. -/
theorem drawOutputWindow_visible_slice_witness :
    drawOutputWindow [['a'], ['b'], ['c'], ['d'], ['e']] 3 10 1 =
      [['b'], ['c'], ['d']] := by
  have := (drawOutputWindow_visible_slice [['a'], ['b'], ['c'], ['d'], ['e']] 3 10 1
    (by decide) (by decide) (by decide)).1
  rw [this]
  decide

end VisibleSlice

section History

/-- C4 counterexample: with the history already holding 100 entries (all
`"a"`), submitting the fresh command `"b"` does not merely append it with
all other entries unchanged — the oldest entry is also evicted, so the
result differs from `history ++ [b]`. -/
theorem addToHistory_append_at_cap_counterexample :
    (['b'] : List Char) ≠ [] ∧
      (List.replicate 100 (['a'] : List Char)).getLast? ≠ some ['b'] ∧
      addToHistory (List.replicate 100 ['a']) ['b'] ≠
        List.replicate 100 (['a'] : List Char) ++ [['b']] := by
  decide

lemma addToHistory_fresh {hist : List (List Char)} {c : List Char}
    (hc : c ≠ []) (hl : hist.getLast? ≠ some c) :
    addToHistory hist c =
      if 100 < hist.length + 1 then (hist ++ [c]).drop 1 else hist ++ [c] := by
  unfold addToHistory
  rw [if_neg (by
    rintro (rfl | ⟨-, h⟩)
    · exact hc rfl
    · exact hl h)]
  simp

lemma addToHistory_getLast {hist : List (List Char)} {c : List Char}
    (hc : c ≠ []) : (addToHistory hist c).getLast? = some c := by
  unfold addToHistory
  split_ifs with h
  · rcases h with rfl | ⟨-, h⟩
    · exact absurd rfl hc
    · exact h
  · dsimp only
    split_ifs with h100
    · have h1 : 1 ≤ hist.length := by
        simp at h100
        omega
      rw [List.drop_append_of_le_length h1, List.getLast?_concat]
    · rw [List.getLast?_concat]

/-- C4 amended: submitting a non-empty command `c` whose value differs
from the last history entry appends exactly one entry equal to `c` with
all other entries unchanged provided the history is below the 100-entry
cap; at the cap the append also evicts the oldest entry.  Submitting the
same command again immediately afterwards leaves the history unchanged,
and submitting an empty command never appends. -/
theorem addToHistory_dedup_append :
    (∀ (hist : List (List Char)) (c : List Char), c ≠ [] →
        hist.getLast? ≠ some c → hist.length < 100 →
        addToHistory hist c = hist ++ [c]) ∧
      (∀ (hist : List (List Char)) (c : List Char), c ≠ [] →
        hist.getLast? ≠ some c → 100 ≤ hist.length →
        addToHistory hist c = (hist ++ [c]).drop 1) ∧
      (∀ (hist : List (List Char)) (c : List Char), c ≠ [] →
        addToHistory (addToHistory hist c) c = addToHistory hist c) ∧
      (∀ hist : List (List Char), addToHistory hist [] = hist) := by
  refine ⟨?_, ?_, ?_, ?_⟩
  · intro hist c hc hl hlen
    rw [addToHistory_fresh hc hl, if_neg (by omega)]
  · intro hist c hc hl hlen
    rw [addToHistory_fresh hc hl, if_pos (by omega)]
  · intro hist c hc
    have hlast : (addToHistory hist c).getLast? = some c := addToHistory_getLast hc
    have hne : addToHistory hist c ≠ [] := by
      intro hnil
      rw [hnil] at hlast
      simp at hlast
    unfold addToHistory
    rw [if_pos (Or.inr ⟨hne, hlast⟩)]
  · intro hist
    unfold addToHistory
    rw [if_pos (Or.inl rfl)]

/-- Witness for C4 (amended): submitting `"b"` after a one-entry history
`["a"]` appends it. -/
theorem addToHistory_dedup_append_witness :
    addToHistory [['a']] ['b'] = [['a'], ['b']] :=
  addToHistory_dedup_append.1 [['a']] ['b'] (by decide) (by decide) (by decide)

lemma addToHistory_length_le {hist : List (List Char)} {c : List Char}
    (h : hist.length ≤ 100) : (addToHistory hist c).length ≤ 100 := by
  unfold addToHistory
  split_ifs with h1
  · exact h
  · dsimp only
    split_ifs with h2 <;> simp at h2 ⊢ <;> omega

lemma foldl_addToHistory_length {cmds : List (List Char)}
    {hist : List (List Char)} (h : hist.length ≤ 100) :
    (List.foldl addToHistory hist cmds).length ≤ 100 := by
  induction cmds generalizing hist with
  | nil => exact h
  | cons c cs ih => exact ih (addToHistory_length_le h)

lemma chain_getLast_ne {hist : List (List Char)} {c : List Char}
    {cs : List (List Char)}
    (hch : List.Chain' (· ≠ ·) (hist ++ c :: cs)) : hist.getLast? ≠ some c := by
  intro hlast
  have := (List.chain'_append.1 hch).2.2
  exact this c hlast c rfl rfl

lemma foldl_addToHistory_drop {cmds : List (List Char)}
    {hist : List (List Char)} (hlen : hist.length ≤ 100)
    (hne : ∀ c ∈ cmds, c ≠ []) (hch : List.Chain' (· ≠ ·) (hist ++ cmds)) :
    List.foldl addToHistory hist cmds =
      (hist ++ cmds).drop (hist.length + cmds.length - 100) := by
  induction cmds generalizing hist with
  | nil =>
    simp only [List.foldl_nil, List.append_nil, List.length_nil]
    rw [show hist.length + 0 - 100 = 0 by omega, List.drop_zero]
  | cons c cs ih =>
    have hc : c ≠ [] := hne c (List.mem_cons_self c cs)
    have hl : hist.getLast? ≠ some c := chain_getLast_ne hch
    have hstep := addToHistory_fresh hc hl
    rw [List.foldl_cons]
    by_cases hcap : 100 < hist.length + 1
    · rw [hstep, if_pos hcap]
      have h1le : 1 ≤ hist.length := by omega
      have hd : (hist ++ [c]).drop 1 = hist.drop 1 ++ [c] :=
        List.drop_append_of_le_length h1le
      have hlen2 : ((hist ++ [c]).drop 1).length ≤ 100 := by
        simp
        omega
      have hassoc : (hist ++ [c]).drop 1 ++ cs = (hist ++ c :: cs).drop 1 := by
        rw [hd, List.drop_append_of_le_length h1le, List.append_assoc,
          List.singleton_append]
      have hch2 : List.Chain' (· ≠ ·) ((hist ++ [c]).drop 1 ++ cs) := by
        rw [hassoc, List.drop_one]
        exact hch.tail
      rw [ih hlen2 (fun x hx => hne x (List.mem_cons_of_mem c hx)) hch2, hassoc]
      rw [List.drop_drop]
      congr 1
      simp
      omega
    · rw [hstep, if_neg hcap]
      have hlen2 : (hist ++ [c]).length ≤ 100 := by
        simp
        omega
      have hassoc : hist ++ [c] ++ cs = hist ++ c :: cs := by
        rw [List.append_assoc, List.singleton_append]
      have hch2 : List.Chain' (· ≠ ·) (hist ++ [c] ++ cs) := by
        rw [hassoc]
        exact hch
      rw [ih hlen2 (fun x hx => hne x (List.mem_cons_of_mem c hx)) hch2, hassoc]
      congr 1
      simp
      omega

/-- C5: for every sequence of submissions the history never exceeds 100
entries, and a sequence of 101 distinct non-empty submissions leaves
exactly the last 100 in order — the first-submitted command has been
evicted and is no longer present. -/
theorem history_cap_and_fifo_eviction :
    (∀ cmds : List (List Char), (List.foldl addToHistory [] cmds).length ≤ 100) ∧
      (∀ cmds : List (List Char), cmds.length = 101 → (∀ c ∈ cmds, c ≠ []) →
        cmds.Nodup →
        List.foldl addToHistory [] cmds = cmds.tail ∧
          ∀ x, cmds.head? = some x → x ∉ List.foldl addToHistory [] cmds) := by
  constructor
  · intro cmds
    exact foldl_addToHistory_length (by simp)
  · intro cmds hlen hne hnd
    have hch : List.Chain' (· ≠ ·) (([] : List (List Char)) ++ cmds) := by
      rw [List.nil_append]
      exact List.Pairwise.chain' hnd
    have heq := foldl_addToHistory_drop (by simp) hne hch
    rw [List.nil_append] at heq
    simp only [List.length_nil, Nat.zero_add, hlen] at heq
    rw [show 101 - 100 = 1 by omega, List.drop_one] at heq
    refine ⟨heq, ?_⟩
    intro x hx hmem
    rw [heq] at hmem
    cases cmds with
    | nil => simp at hx
    | cons y t =>
      simp only [List.head?_cons, Option.some.injEq] at hx
      subst hx
      simp only [List.tail_cons] at hmem
      exact (List.nodup_cons.1 hnd).1 hmem

/-- Witness for C5: 101 pairwise-distinct non-empty commands (runs of
`'a'` of lengths 1 to 101) leave the last 100 of them, the first one
evicted. -/
theorem history_cap_and_fifo_eviction_witness :
    List.foldl addToHistory []
        ((List.range 101).map (fun n => List.replicate (n + 1) 'a')) =
      ((List.range 101).map (fun n => List.replicate (n + 1) 'a')).tail :=
  (history_cap_and_fifo_eviction.2
    ((List.range 101).map (fun n => List.replicate (n + 1) 'a'))
    (by simp)
    (by
      intro c hc
      simp only [List.mem_map] at hc
      obtain ⟨n, -, rfl⟩ := hc
      simp)
    ((List.nodup_range 101).map (fun _ _ hab => by
      have hlen := congrArg List.length hab
      simp only [List.length_replicate] at hlen
      omega))).1

end History

section Signals

/-- C6 counterexample: with callback `0` already registered for signal 2,
a second registration of callback `1` whose OS-level installation fails
returns `RegisterFailed` but erases the map entry outright: signal 2 then
maps to nothing, not to the previously stored callback `0`, so the
registry is not left exactly as it was before the call. -/
theorem registerHandler_rollback_counterexample :
    (registerHandler (fun s => if s = 2 then some 0 else none) 2 (some 1) false).2 =
        some SignalError.RegisterFailed ∧
      (registerHandler (fun s => if s = 2 then some 0 else none) 2 (some 1) false).1 2 =
        none ∧
      (fun s => if s = 2 then (some 0 : Option Nat) else none) 2 = some 0 :=
  ⟨rfl, rfl, rfl⟩

/-- C6 amended: `register(s, f)` fails with `InvalidSignal` when `s ≤ 0`
and with `CallbackError` when the callback is null, in both cases leaving
the registry untouched; on success the callback is stored for `s` with
all other signals unchanged; when OS-level installation fails it returns
`RegisterFailed` after erasing the just-added entry, so `s` maps to
nothing afterwards — a callback previously registered for `s` is lost
rather than restored — while all other signals are unchanged. -/
theorem registerHandler_spec {α : Type} (reg : Registry α) (s : Int)
    (cb : Option α) (osOk : Bool) :
    (s ≤ 0 → registerHandler reg s cb osOk = (reg, some SignalError.InvalidSignal)) ∧
      (0 < s → cb = none →
        registerHandler reg s cb osOk = (reg, some SignalError.CallbackError)) ∧
      (∀ f, 0 < s → cb = some f → osOk = true →
        (registerHandler reg s cb osOk).2 = none ∧
          (registerHandler reg s cb osOk).1 s = some f ∧
          ∀ t, t ≠ s → (registerHandler reg s cb osOk).1 t = reg t) ∧
      (∀ f, 0 < s → cb = some f → osOk = false →
        (registerHandler reg s cb osOk).2 = some SignalError.RegisterFailed ∧
          (registerHandler reg s cb osOk).1 s = none ∧
          ∀ t, t ≠ s → (registerHandler reg s cb osOk).1 t = reg t) := by
  refine ⟨?_, ?_, ?_, ?_⟩
  · intro hs
    unfold registerHandler
    rw [if_pos hs]
  · rintro hs rfl
    unfold registerHandler
    rw [if_neg (by omega)]
  · rintro f hs rfl rfl
    unfold registerHandler
    rw [if_neg (by omega)]
    refine ⟨rfl, by simp, fun t ht => by simp [ht]⟩
  · rintro f hs rfl rfl
    unfold registerHandler
    rw [if_neg (by omega)]
    refine ⟨rfl, by simp, fun t ht => by simp [ht]⟩

/-- Witness for C6 (amended): registering callback `5` for signal 2 on an
empty registry with the OS call succeeding stores it. -/
theorem registerHandler_spec_witness :
    (registerHandler (fun _ => (none : Option Nat)) 2 (some 5) true).2 = none ∧
      (registerHandler (fun _ => (none : Option Nat)) 2 (some 5) true).1 2 = some 5 := by
  have h := (registerHandler_spec (fun _ => (none : Option Nat)) 2 (some 5) true).2.2.1
    5 (by omega) rfl rfl
  exact ⟨h.1, h.2.1⟩

/-- C7: for every positive signal number `s` with nothing registered for
it, `unregister(s)` succeeds and leaves the registry unchanged, and
`UnregisterFailed` is returned exactly when an entry exists for `s` and
the OS call restoring the default disposition fails. -/
theorem unregisterHandler_noop_and_failure (α : Type) (reg : Registry α)
    (s : Int) (osOk : Bool) (hs : 0 < s) :
    (reg s = none → unregisterHandler reg s osOk = (reg, none)) ∧
      ((unregisterHandler reg s osOk).2 = some SignalError.UnregisterFailed ↔
        (∃ f, reg s = some f) ∧ osOk = false) := by
  constructor
  · intro hnone
    unfold unregisterHandler
    rw [if_neg (by omega), hnone]
  · unfold unregisterHandler
    rw [if_neg (by omega)]
    cases hr : reg s with
    | none =>
      simp [hr]
    | some f =>
      cases osOk <;> simp [hr]

/-- Witness for C7: unregistering signal 2 from an empty registry is a
successful no-op. -/
theorem unregisterHandler_noop_and_failure_witness :
    unregisterHandler (fun _ => (none : Option Nat)) 2 true =
      ((fun _ => (none : Option Nat)), none) :=
  (unregisterHandler_noop_and_failure Nat (fun _ => none) 2 true (by omega)).1 rfl

lemma handleSignal_eq {α : Type} (reg : Registry α) (s : Int) :
    handleSignal reg s = reg s := by
  unfold handleSignal
  cases reg s <;> rfl

/-- C8: registering `f` and then `g` for the same positive signal `s`
(both calls succeeding) leaves exactly one entry for `s`, equal to `g`,
with all other signals unchanged, and a subsequent dispatch of `s`
invokes `g` and not `f`. -/
theorem registerHandler_last_write_wins {α : Type} (reg : Registry α)
    (s : Int) (f g : α) (hs : 0 < s) :
    (registerHandler reg s (some f) true).2 = none ∧
      (registerHandler (registerHandler reg s (some f) true).1 s (some g) true).2 = none ∧
      (registerHandler (registerHandler reg s (some f) true).1 s (some g) true).1 s =
        some g ∧
      (∀ t, t ≠ s →
        (registerHandler (registerHandler reg s (some f) true).1 s (some g) true).1 t =
          reg t) ∧
      handleSignal
          (registerHandler (registerHandler reg s (some f) true).1 s (some g) true).1 s =
        some g ∧
      (f ≠ g →
        handleSignal
            (registerHandler (registerHandler reg s (some f) true).1 s (some g) true).1 s ≠
          some f) := by
  have hreg : ∀ (r : Registry α) (c : α),
      registerHandler r s (some c) true = ((fun t => if t = s then some c else r t), none) := by
    intro r c
    unfold registerHandler
    rw [if_neg (by omega)]
    rfl
  refine ⟨by rw [hreg], by rw [hreg, hreg], ?_, ?_, ?_, ?_⟩
  · rw [hreg, hreg]
    simp
  · intro t ht
    rw [hreg, hreg]
    simp [ht]
  · rw [hreg, hreg, handleSignal_eq]
    simp
  · intro hfg
    rw [hreg, hreg, handleSignal_eq]
    simp
    intro hgf
    exact hfg hgf.symm

/-- Witness for C8: registering callbacks `0` then `1` for signal 2 makes
dispatch invoke `1`, not `0`. -/
theorem registerHandler_last_write_wins_witness :
    handleSignal
        (registerHandler
          (registerHandler (fun _ => (none : Option Nat)) 2 (some 0) true).1
          2 (some 1) true).1 2 = some 1 ∧
      handleSignal
          (registerHandler
            (registerHandler (fun _ => (none : Option Nat)) 2 (some 0) true).1
            2 (some 1) true).1 2 ≠ some 0 := by
  have h := registerHandler_last_write_wins (fun _ => (none : Option Nat)) 2 0 1 (by omega)
  exact ⟨h.2.2.2.2.1, h.2.2.2.2.2 (by omega)⟩

end Signals

section Submission

lemma addOutputMessage_eq_drop (b : List (List Char)) (m : List Char) :
    addOutputMessage b m = (b ++ [m]).drop (b.length + 1 - 1000) := by
  unfold addOutputMessage
  dsimp only
  split_ifs with h
  · simp only [List.length_append, List.length_cons, List.length_nil]
  · simp only [List.length_append, List.length_cons, List.length_nil] at h
    rw [show b.length + 1 - 1000 = 0 by omega, List.drop_zero]

lemma length_addOutputMessage (b : List (List Char)) (m : List Char) :
    (addOutputMessage b m).length = min (b.length + 1) 1000 := by
  rw [addOutputMessage_eq_drop]
  simp
  omega

lemma drop_concat_getLast {α : Type} (l : List α) (a : α) (k : Nat)
    (h : k ≤ l.length) : ((l ++ [a]).drop k).getLast? = some a := by
  rw [List.drop_append_of_le_length h, List.getLast?_concat]

lemma addOutputMessage_getLast (b : List (List Char)) (m : List Char) :
    (addOutputMessage b m).getLast? = some m := by
  rw [addOutputMessage_eq_drop]
  exact drop_concat_getLast b m _ (by omega)

lemma addOutputMessage_two_getLast (b : List (List Char)) (m1 m2 : List Char) :
    (addOutputMessage (addOutputMessage b m1) m2).dropLast.getLast? = some m1 := by
  rw [addOutputMessage_eq_drop (addOutputMessage b m1) m2,
    List.drop_append_of_le_length (by omega), List.dropLast_concat,
    addOutputMessage_eq_drop b m1, List.drop_drop]
  apply drop_concat_getLast
  have hlen := length_addOutputMessage b m1
  rw [addOutputMessage_eq_drop b m1] at hlen
  simp only [List.length_drop, List.length_append, List.length_cons,
    List.length_nil] at hlen ⊢
  omega

lemma dropWhile_ne_nil_of_self_ne {c : List Char} (hws : c.dropWhile isWS ≠ []) :
    c ≠ [] := by
  intro rfl0
  rw [rfl0] at hws
  simp at hws

/-- C9: for every command `c` submitted through the session loop that is
not whitespace-only and does not quit, the echo line `"> " ++ c` is
appended to the output log strictly before the dispatcher's response for
`c`: the new log is the old one with exactly those two lines appended in
that order, the dispatcher's response is the last entry and the echo the
one before it. -/
theorem submit_echo_before_response
    (dispatch : List Char → List Char → List Char)
    (quitP : List Char → List Char → Bool)
    (st : SessionState) (c : List Char)
    (hws : c.dropWhile isWS ≠ [])
    (hq : quitP (splitCommand (trimWS c)).1 (splitCommand (trimWS c)).2 = false) :
    (submitCommand dispatch quitP st c).outputBuffer =
        addOutputMessage (addOutputMessage st.outputBuffer ("> ".toList ++ c))
          (dispatch (splitCommand (trimWS c)).1 (splitCommand (trimWS c)).2) ∧
      (submitCommand dispatch quitP st c).outputBuffer.getLast? =
        some (dispatch (splitCommand (trimWS c)).1 (splitCommand (trimWS c)).2) ∧
      (submitCommand dispatch quitP st c).outputBuffer.dropLast.getLast? =
        some ("> ".toList ++ c) ∧
      (submitCommand dispatch quitP st c).isRunning = st.isRunning := by
  have hc : c ≠ [] := dropWhile_ne_nil_of_self_ne hws
  have heq : submitCommand dispatch quitP st c =
      ⟨addOutputMessage (addOutputMessage st.outputBuffer ("> ".toList ++ c))
          (dispatch (splitCommand (trimWS c)).1 (splitCommand (trimWS c)).2),
        st.isRunning⟩ := by
    unfold submitCommand processCommand
    rw [if_neg hc, if_neg hws]
    unfold handleGameCommand
    dsimp only
    rw [hq]
    simp
  rw [heq]
  exact ⟨rfl, addOutputMessage_getLast _ _, addOutputMessage_two_getLast _ _ _, rfl⟩

set_option maxRecDepth 100000 in
/-- Witness for C9: submitting `"look"` on a fresh session with the
`look` dispatcher leaves the echo `"> look"` and then the Start Room
description as the last two lines of the output log. -/
theorem submit_echo_before_response_witness :
    (submitCommand lookDispatch shouldQuit ⟨[], true⟩ "look".toList).outputBuffer.dropLast.getLast? =
        some "> look".toList ∧
      (submitCommand lookDispatch shouldQuit ⟨[], true⟩ "look".toList).outputBuffer.getLast? =
        some (lookHandler startRoom) := by
  have h := submit_echo_before_response lookDispatch shouldQuit ⟨[], true⟩ "look".toList
    (by decide) (by decide)
  refine ⟨?_, ?_⟩
  · rw [h.2.2.1]
    decide
  · rw [h.2.1]
    decide

lemma mem_addToHistory {hist : List (List Char)} {c : List Char} (hc : c ≠ []) :
    c ∈ addToHistory hist c := by
  unfold addToHistory
  split_ifs with h1
  · rcases h1 with rfl | ⟨-, hl⟩
    · exact absurd rfl hc
    · exact List.mem_of_mem_getLast? hl
  · dsimp only
    split_ifs with h2
    · have hlen : 1 ≤ hist.length := by
        simp at h2
        omega
      rw [List.drop_append_of_le_length hlen]
      exact List.mem_append_right _ (List.mem_singleton.2 rfl)
    · exact List.mem_append_right _ (List.mem_singleton.2 rfl)

lemma processKey_enter {est : EditorState} {key : Int}
    (hkey : key = keyEnter ∨ key = 10 ∨ key = 13) (hne : est.inputBuffer ≠ []) :
    processKey est key =
      ({ est with commandHistory := addToHistory est.commandHistory est.inputBuffer,
                  inputBuffer := [], cursorPos := 0, historyIndex := -1 },
       ⟨true, true, est.inputBuffer⟩) := by
  rcases hkey with rfl | rfl | rfl <;>
  · unfold processKey keyEnter keyBackspace keyDC keyLeft keyRight keyHome keyEnd keyUp keyDown
    repeat rw [if_neg (by decide)]
    rw [if_pos (by decide), if_pos hne]

/-- C10: a submitted command that is non-empty but consists only of
whitespace is still echoed into the output log and still recorded in the
command history, but `processCommand` returns before reaching the
dispatcher: the session state afterwards carries exactly the echo line
and no response, whatever dispatcher and quit policy are plugged in. -/
theorem whitespace_command_echoed_not_dispatched
    (dispatch : List Char → List Char → List Char)
    (quitP : List Char → List Char → Bool)
    (st : SessionState) (est : EditorState) (key : Int) (c : List Char)
    (hkey : key = keyEnter ∨ key = 10 ∨ key = 13)
    (hbuf : est.inputBuffer = c) (hc : c ≠ []) (hws : c.dropWhile isWS = []) :
    (processKey est key).2.commandSubmitted = true ∧
      (processKey est key).2.submittedCommand = c ∧
      (processKey est key).1.commandHistory = addToHistory est.commandHistory c ∧
      c ∈ (processKey est key).1.commandHistory ∧
      submitCommand dispatch quitP st c =
        { st with outputBuffer := addOutputMessage st.outputBuffer ("> ".toList ++ c) } := by
  subst hbuf
  rw [processKey_enter hkey hc]
  refine ⟨rfl, rfl, rfl, mem_addToHistory hc, ?_⟩
  unfold submitCommand processCommand
  rw [if_neg hc, if_pos hws]

/-- Witness for C10: submitting the single-space command `" "` echoes
`"> "` followed by the space, records it in the history, and appends no
dispatcher response. -/
theorem whitespace_command_echoed_not_dispatched_witness :
    (processKey ⟨[' '], 1, [], -1⟩ 10).2.commandSubmitted = true ∧
      [' '] ∈ (processKey ⟨[' '], 1, [], -1⟩ 10).1.commandHistory ∧
      submitCommand lookDispatch shouldQuit ⟨[], true⟩ [' '] =
        ⟨[('>' :: ' ' :: [' '])], true⟩ := by
  have h := whitespace_command_echoed_not_dispatched lookDispatch shouldQuit
    ⟨[], true⟩ ⟨[' '], 1, [], -1⟩ 10 [' ']
    (Or.inr (Or.inl rfl)) rfl (by decide) (by decide)
  refine ⟨h.1, h.2.2.2.1, ?_⟩
  rw [h.2.2.2.2]
  rfl

end Submission

end EchoMUD
